import Mathlib

/-!
Verification of the waterfurnace-py facade (`src/app.py`).

Python dictionaries are modelled as association lists in insertion order
with unique keys; `dictInsert` mirrors Python's assignment semantics
(overwriting keeps the key's position, fresh keys append at the end).
String operations are implemented over character lists with Python's
semantics.  Exceptions are modelled with `Except` over a small exception
type: a value `.error e` means the Python code raised `e` at that point
and nothing caught it inside the modelled function.
-/

set_option autoImplicit false

namespace WaterfurnacePy

/-- The Python exception classes that appear in `src/app.py`. -/
inductive PyExc where
  | keyError
  | valueError
  | typeError
  | awlConnectionError
  | awlLoginError
  deriving DecidableEq, Repr

/-- JSON-ish values of the upstream telemetry payload: scalars and nested
objects (the `activesettings` value is a nested object). -/
inductive JValue where
  | str : String → JValue
  | num : Int → JValue
  | obj : List (String × JValue) → JValue
  deriving Repr

/-- Python dict assignment `d[k] = v`: overwriting an existing key keeps its
position, a fresh key is appended at the end. -/
def dictInsert {V : Type} (d : List (String × V)) (k : String) (v : V) :
    List (String × V) :=
  if d.any (fun p => k == p.1) then
    d.map (fun p => if k == p.1 then (k, v) else p)
  else d ++ [(k, v)]

/-- Python `d.update(other)`: assign every pair of `other` into `d`, in
order. -/
def dictUpdate {V : Type} (d other : List (String × V)) : List (String × V) :=
  other.foldl (fun acc p => dictInsert acc p.1 p.2) d

/-- A Python dict comprehension: build a dict from the item sequence with
assignment semantics (a later item with the same key overwrites the value
stored for the earlier one). -/
def dictOfItems {V : Type} (items : List (String × V)) : List (String × V) :=
  items.foldl (fun acc p => dictInsert acc p.1 p.2) []

/-- Python `s.startswith(pre)`. -/
def pyStartsWith (s pre : String) : Bool := pre.toList.isPrefixOf s.toList

/-- Remove the first occurrence of `pat` from a character list. -/
def removeFirstSub (pat : List Char) : List Char → List Char
  | [] => []
  | c :: rest =>
    if pat.isPrefixOf (c :: rest) then (c :: rest).drop pat.length
    else c :: removeFirstSub pat rest

/-- Python `s.replace(pat, "", 1)`: remove the first occurrence of `pat`
(anywhere in the string, not only at the front). -/
def pyReplaceFirst (s pat : String) : String :=
  String.mk (removeFirstSub pat.toList s.toList)

/-- Python `s[1:]`: drop the first character. -/
def pyDrop1 (s : String) : String := String.mk (s.toList.drop 1)

/-- Strip whitespace from both ends, as `int()`/`float()` do to their
string argument. -/
def pyStripChars (cs : List Char) : List Char :=
  ((cs.dropWhile Char.isWhitespace).reverse.dropWhile Char.isWhitespace).reverse

/-- Digits of a Python integer literal after the first one: `digit
(["_"] digit)*`, an underscore must be followed by a digit. -/
def pyDigitsCore : List Char → Nat → Option Nat
  | [], acc => some acc
  | '_' :: c :: rest, acc =>
      if c.isDigit then pyDigitsCore rest (acc * 10 + (c.toNat - 48)) else none
  | ['_'], _ => none
  | c :: rest, acc =>
      if c.isDigit then pyDigitsCore rest (acc * 10 + (c.toNat - 48)) else none

/-- A nonempty Python digit run (underscores allowed between digits). -/
def pyDigitsVal : List Char → Option Nat
  | [] => none
  | c :: rest => if c.isDigit then pyDigitsCore rest (c.toNat - 48) else none

/-- Python `int(s)` on a string: optional surrounding whitespace, optional
sign, a base-10 digit run; `none` models the `ValueError` raised on any
other input. -/
def pyInt (s : String) : Option Int :=
  match pyStripChars s.toList with
  | '+' :: rest => (pyDigitsVal rest).map (fun n => (n : Int))
  | '-' :: rest => (pyDigitsVal rest).map (fun n => -(n : Int))
  | cs => (pyDigitsVal cs).map (fun n => (n : Int))

/-- The per-zone key namespace of a telemetry payload
(`f"iz2_z{zoneid}_"` in `read_zone`). -/
def zonePfx (zoneid : Nat) : String := "iz2_z" ++ toString zoneid ++ "_"

/-- A telemetry payload: the flat mapping returned by reading one gateway. -/
abbrev TelemetryPayload := List (String × JValue)

/-- `src/app.py` `read_zone` (route `/gateways/<gwid>/zones/<int:zoneid>/details`),
the extraction applied to the payload returned by the cached gateway read:
filter to the zone's keys, pop `iz2_z{zoneid}_activesettings` and update its
contents into an empty dict, update the remaining zone keys on top, then
rebuild the dict with the first occurrence of the zone namespace removed
from every key.  If the `activesettings` value is not an object,
`dict.update` raises (modelled as `typeError`). -/
def read_zone (gateway_data : TelemetryPayload) (zoneid : Nat) :
    Except PyExc TelemetryPayload :=
  let zp := zonePfx zoneid
  let zone_raw_data := gateway_data.filter (fun p => pyStartsWith p.1 zp)
  let asKey := zp ++ "activesettings"
  let remaining := zone_raw_data.filter (fun p => p.1 != asKey)
  let strip := fun (d : TelemetryPayload) =>
    dictOfItems (d.map (fun p => (pyReplaceFirst p.1 zp, p.2)))
  match List.lookup asKey zone_raw_data with
  | none => .ok (strip (dictUpdate [] remaining))
  | some (JValue.obj settings) =>
      .ok (strip (dictUpdate (dictUpdate [] settings) remaining))
  | some _ => .error .typeError

/-- One gateway of the login snapshot.  A field holding `none` models the
dict key being absent (`gateway['gwid']` then raises `KeyError`;
`gateway.get('description')` returns `None`). -/
structure AwlGateway where
  gwid : Option String
  description : Option String
  tstat_names : Option (List (String × Option String))
  deriving Repr

/-- One location of the login snapshot. -/
structure AwlLocation where
  description : Option String
  gateways : Option (List AwlGateway)
  deriving Repr

/-- The `login_data` snapshot returned by upstream authentication. -/
structure LoginData where
  locations : Option (List AwlLocation)
  deriving Repr

/-- A projected gateway record, `{location, gwid, system_name}`. -/
structure GatewayRecord where
  location : Option String
  gwid : String
  system_name : Option String
  deriving DecidableEq, Repr

/-- A projected zone record,
`{location, gwid, system_name, zoneid, zone_name}`. -/
structure ZoneRecord where
  location : Option String
  gwid : String
  system_name : Option String
  zoneid : Int
  zone_name : String
  deriving DecidableEq, Repr

/-- The body of the `try` in `awl_enumerate_gateways`: build one record, or
skip it (`except KeyError` → log) when the gateway has no `gwid` key. -/
def gatewayRow (loc : AwlLocation) (gw : AwlGateway) : Option GatewayRecord :=
  match gw.gwid with
  | none => none
  | some g => some ⟨loc.description, g, gw.description⟩

/-- The location loop of `awl_enumerate_gateways`; `location['gateways']`
is accessed outside any `try`, so a location without the key raises. -/
def gatewaysLoop : List AwlLocation → Except PyExc (List GatewayRecord)
  | [] => .ok []
  | loc :: rest =>
    match loc.gateways with
    | none => .error .keyError
    | some gws =>
        (gatewaysLoop rest).map (fun tail => gws.filterMap (gatewayRow loc) ++ tail)

/-- `src/app.py` `awl_enumerate_gateways`: flatten locations → gateways into
records; `awl_login_data['locations']` raises if absent. -/
def awl_enumerate_gateways (login : LoginData) : Except PyExc (List GatewayRecord) :=
  match login.locations with
  | none => .error .keyError
  | some locs => gatewaysLoop locs

/-- Spec §4.3 `enumerateGateways`, stated from the spec's words: flatten
locations then gateways in snapshot order, dropping entries without a
`gwid`. -/
def enumerateGatewaysSpec (login : LoginData) : List GatewayRecord :=
  ((login.locations.getD []).map (fun loc =>
    (loc.gateways.getD []).filterMap (gatewayRow loc))).flatten

/-- The body of the zone loop in `awl_enumerate_zones`: the `if zone_name
is not None` guard, then the `try` whose `except KeyError` (no `gwid`) and
`except ValueError` (`int(key[1:])` fails) skip the record. -/
def zoneRow (loc : AwlLocation) (gw : AwlGateway) (e : String × Option String) :
    Option ZoneRecord :=
  match e.2 with
  | none => none
  | some zname =>
    match gw.gwid with
    | none => none
    | some g =>
      match pyInt (pyDrop1 e.1) with
      | none => none
      | some z => some ⟨loc.description, g, gw.description, z, zname⟩

/-- The gateway loop of `awl_enumerate_zones`; `gateway['tstat_names']` is
accessed outside the `try`, so a gateway without the key raises. -/
def zonesGatewayLoop (loc : AwlLocation) :
    List AwlGateway → Except PyExc (List ZoneRecord)
  | [] => .ok []
  | gw :: rest =>
    match gw.tstat_names with
    | none => .error .keyError
    | some entries =>
        (zonesGatewayLoop loc rest).map
          (fun tail => entries.filterMap (zoneRow loc gw) ++ tail)

/-- The location loop of `awl_enumerate_zones`. -/
def zonesLoop : List AwlLocation → Except PyExc (List ZoneRecord)
  | [] => .ok []
  | loc :: rest =>
    match loc.gateways with
    | none => .error .keyError
    | some gws => do
        let here ← zonesGatewayLoop loc gws
        let tail ← zonesLoop rest
        pure (here ++ tail)

/-- `src/app.py` `awl_enumerate_zones` (route `/zones`): flatten
locations → gateways → `tstat_names` entries into zone records. -/
def awl_enumerate_zones (login : LoginData) : Except PyExc (List ZoneRecord) :=
  match login.locations with
  | none => .error .keyError
  | some locs => zonesLoop locs

/-- Spec §4.3 `enumerateZones`, stated from the spec's words: flatten in
snapshot order, excluding null zone names and dropping records without a
`gwid` or with a zone-slot suffix that is not an integer. -/
def enumerateZonesSpec (login : LoginData) : List ZoneRecord :=
  ((login.locations.getD []).map (fun loc =>
    ((loc.gateways.getD []).map (fun gw =>
      (gw.tstat_names.getD []).filterMap (zoneRow loc gw))).flatten)).flatten

/-- A login snapshot is well shaped when the `locations`, `gateways` and
`tstat_names` keys are all present (individual gateways may still lack
`gwid`, have null zone names or unparsable zone-slot keys). -/
def WellShaped (login : LoginData) : Prop :=
  ∃ locs, login.locations = some locs ∧
    ∀ loc ∈ locs, ∃ gws, loc.gateways = some gws ∧
      ∀ gw ∈ gws, ∃ entries, gw.tstat_names = some entries

/-- A snapshot where every location has its `gateways` key — what gateway
enumeration needs to get past the unguarded `location['gateways']` access
(gateways may still lack `gwid` or anything else). -/
def GatewaysShaped (login : LoginData) : Prop :=
  ∃ locs, login.locations = some locs ∧
    ∀ loc ∈ locs, ∃ gws, loc.gateways = some gws

/-- Outcome of the single-zone view: the JSON body, a 404, or a 500. -/
inductive ZoneView where
  | found : ZoneRecord → ZoneView
  | notFound : ZoneView
  | internalError : ZoneView
  deriving DecidableEq, Repr

/-- `src/app.py` `view_gateway_zone` (route
`/gateways/<gwid>/zones/<int:zoneid>`): filter the enumerated zones to the
requested pair, then `abort(404)` on zero matches, `abort(500)` on more
than one, else return the single record. -/
def view_gateway_zone (login : LoginData) (gwid : String) (zoneid : Int) :
    Except PyExc ZoneView :=
  match awl_enumerate_zones login with
  | .error e => .error e
  | .ok zones =>
    match zones.filter (fun z => z.gwid == gwid && z.zoneid == zoneid) with
    | [] => .ok .notFound
    | [z] => .ok (.found z)
    | _ :: _ :: _ => .ok .internalError

/-- A value stored in `app.config` (numbers and strings suffice for the
keys modelled here). -/
inductive ConfigVal where
  | num : Rat → ConfigVal
  | str : String → ConfigVal
  deriving DecidableEq, Repr

/-- Leading digit run of a float literal. -/
def takeDigits : List Char → List Char × List Char
  | [] => ([], [])
  | c :: rest =>
    if c.isDigit then
      let (ds, r) := takeDigits rest
      (c :: ds, r)
    else ([], c :: rest)

/-- Value of a digit run. -/
def digitsToNat (ds : List Char) : Nat :=
  ds.foldl (fun a c => a * 10 + (c.toNat - 48)) 0

/-- Unsigned part of Python `float(s)`: `digits`, `digits.digits`,
`digits.` or `.digits` (exponent forms are not modelled; no claim
exercises them). -/
def pyFloatCore (cs : List Char) : Option Rat :=
  let (ip, rest1) := takeDigits cs
  match rest1 with
  | [] => if ip.isEmpty then none else some (digitsToNat ip : Rat)
  | '.' :: rest2 =>
    let (fp, rest3) := takeDigits rest2
    if rest3.isEmpty && !(ip.isEmpty && fp.isEmpty) then
      some ((digitsToNat ip : Rat) + (digitsToNat fp : Rat) / ((10 : Rat) ^ fp.length))
    else none
  | _ => none

/-- Python `float(x)` on a config value; `none` models the `ValueError`
raised on a non-numeric string. -/
def pyFloat : ConfigVal → Option Rat
  | .num q => some q
  | .str s =>
    match pyStripChars s.toList with
    | '+' :: rest => pyFloatCore rest
    | '-' :: rest => (pyFloatCore rest).map Neg.neg
    | cs => pyFloatCore cs

/-- The relevant part of `app.config` from `src/app.py` lines 49–68:
`from_mapping` stores `WEBSOCKETS_WARN_AFTER_DISCONNECTED` (uppercase, as
Quart config keys are) as 0 in development/testing and 10 in production,
plus the common defaults.  `from_envvar`/`from_pyfile` only ever add
uppercase keys. -/
def app_config (env : String) : List (String × ConfigVal) :=
  (if env = "development" ∨ env = "testing" then
    [("WEBSOCKETS_WARN_AFTER_DISCONNECTED", ConfigVal.num 0)]
  else if env = "production" then
    [("WEBSOCKETS_WARN_AFTER_DISCONNECTED", ConfigVal.num 10)]
  else []) ++
  [("ACCESS_LOG", ConfigVal.str "access.log")]

/-- The `details` dict the backoff library passes to its event handlers. -/
structure BackoffDetails where
  elapsed : Rat
  tries : Nat
  wait : Rat
  deriving DecidableEq, Repr

/-- `src/app.py` `backoff_handler`: look up
`app.config['websockets_warn_after_disconnected']` (raising `KeyError` if
the key is absent — only `ValueError`, from the `float()` conversion, is
caught and replaced by `max_elapsed = 0.0`), then log a critical alert iff
`details['elapsed'] > max_elapsed`.  Returns the details of the critical
log line, if one was emitted. -/
def backoff_handler (config : List (String × ConfigVal))
    (details : BackoffDetails) : Except PyExc (Option BackoffDetails) :=
  match List.lookup "websockets_warn_after_disconnected" config with
  | none => .error .keyError
  | some v =>
    let max_elapsed := (pyFloat v).getD 0
    if max_elapsed < details.elapsed then .ok (some details) else .ok none

/-- `src/app.py` `backoff_success_handler`: warn only when more than one
attempt was needed. -/
def backoff_success_handler (details : BackoffDetails) : Option BackoffDetails :=
  if details.tries > 1 then some details else none

/-- One stored entry of the timed cache. -/
structure CacheEntry (V : Type) where
  value : V
  insertedAt : Rat
  deriving DecidableEq, Repr

/-- Modelled from the spec: `timed_cache.py` is part of this repository but
not under `src/`; spec §4.2 defines its contract.  `get_or_compute(key,
ttl, compute)`: on a hit (entry present and `now < insertedAt + ttl`)
return the stored value without invoking `compute`; on a miss invoke
`compute(key)` and, on success, store the result with `insertedAt = now`;
on failure store nothing and propagate the error.  The third component
reports whether `compute` was invoked. -/
def get_or_compute {V E : Type} (cache : List (String × CacheEntry V))
    (key : String) (ttl now : Rat) (compute : String → Except E V) :
    Except E V × List (String × CacheEntry V) × Bool :=
  match List.lookup key cache with
  | some entry =>
    if now < entry.insertedAt + ttl then (.ok entry.value, cache, false)
    else
      match compute key with
      | .ok v => (.ok v, dictInsert cache key ⟨v, now⟩, true)
      | .error e => (.error e, cache, true)
  | none =>
    match compute key with
    | .ok v => (.ok v, dictInsert cache key ⟨v, now⟩, true)
    | .error e => (.error e, cache, true)

/-- Whether a cache access at `now` is a hit. -/
def cacheHit {V : Type} (cache : List (String × CacheEntry V)) (key : String)
    (ttl now : Rat) : Bool :=
  match List.lookup key cache with
  | some entry => decide (now < entry.insertedAt + ttl)
  | none => false

/-- `src/app.py` `awl_read_gateway`: the upstream read wrapped in
`@timed_cache(seconds=10)`, keyed by `gwid`. -/
def awl_read_gateway {E : Type}
    (upstream_read : String → Except E TelemetryPayload)
    (cache : List (String × CacheEntry TelemetryPayload)) (now : Rat)
    (gwid : String) :
    Except E TelemetryPayload × List (String × CacheEntry TelemetryPayload) × Bool :=
  get_or_compute cache gwid 10 now upstream_read

/-- The observable steps of `awl_reconnection_handler`. -/
inductive Step where
  | waitClosed
  | logout
  | sleepOne
  | reconnect
  deriving DecidableEq, Repr

/-- `src/app.py` `awl_reconnection_handler`, as a trace function of the
outcomes of the two upstream calls it makes: `wait_closed()` (whose
`AWLConnectionError` alone is caught by the outer `except`) and the
defensive `logout()` (whose `AWLLoginError` alone is caught by the inner
`except`).  Returns the steps performed in order and the exception, if
any, that escaped the handler. -/
def awl_reconnection_handler (waitClosedOutcome logoutOutcome : Except PyExc Unit) :
    List Step × Option PyExc :=
  match waitClosedOutcome with
  | .ok _ => ([.waitClosed, .sleepOne, .reconnect], none)
  | .error e =>
    if e = .awlConnectionError then
      match logoutOutcome with
      | .ok _ => ([.waitClosed, .logout, .sleepOne, .reconnect], none)
      | .error e2 =>
        if e2 = .awlLoginError then
          ([.waitClosed, .logout, .sleepOne, .reconnect], none)
        else ([.waitClosed, .logout], some e2)
    else ([.waitClosed], some e)

/-- Equality of modelled call results is decidable. -/
instance {E A : Type} [DecidableEq E] [DecidableEq A] : DecidableEq (Except E A) :=
  fun a b =>
    match a, b with
    | .ok x, .ok y =>
        if h : x = y then .isTrue (by rw [h]) else .isFalse (by simp [h])
    | .error x, .error y =>
        if h : x = y then .isTrue (by rw [h]) else .isFalse (by simp [h])
    | .ok _, .error _ => .isFalse (by simp)
    | .error _, .ok _ => .isFalse (by simp)

/-!
## Claim theorems
-/

/-- C1, counterexample.  On the payload
`{iz2_z1_activesettings: {fan: "auto"}, iz2_z1_fan: "on"}` the final mapping
holds the sibling's value `"on"`, not the `activesettings` value `"auto"`:
during prefix stripping the sibling key `iz2_z1_fan` becomes `fan` and
overwrites the promoted `activesettings` entry, so `activesettings` does
not win. -/
theorem read_zone_activesettings_loses :
    read_zone [("iz2_z1_activesettings", JValue.obj [("fan", JValue.str "auto")]),
               ("iz2_z1_fan", JValue.str "on")] 1
      = .ok [("fan", JValue.str "on")] ∧ ("on" : String) ≠ "auto" :=
  ⟨rfl, by decide⟩

/-- C2, counterexample.  A snapshot whose only gateway lacks the
`tstat_names` mapping makes `/zones` enumeration raise `KeyError`
(`gateway['tstat_names']` is read outside the `try`), so zone enumeration
does not "never fail": the malformed record is propagated as a request
failure instead of being logged and skipped. -/
theorem awl_enumerate_zones_fails_without_tstat_names :
    awl_enumerate_zones ⟨some [⟨some "Home", some [⟨some "gw1", some "Sys", none⟩]⟩]⟩
      = .error .keyError := rfl

/-- C4.  In production the config stores the threshold under the uppercase
key `WEBSOCKETS_WARN_AFTER_DISCONNECTED` (value 10), but `backoff_handler`
looks up the lowercase key and only catches `ValueError`, so on a backoff
event with 15 elapsed seconds and 3 tries — where the claim demands an
escalated critical alert since 15 > 10 — the handler instead raises an
uncaught `KeyError`.  Had the lowercase key existed, the escalation logic
would have fired (third conjunct). -/
theorem backoff_handler_raises_keyError :
    backoff_handler (app_config "production") ⟨15, 3, 2⟩ = .error .keyError ∧
    List.lookup "WEBSOCKETS_WARN_AFTER_DISCONNECTED" (app_config "production")
      = some (ConfigVal.num 10) ∧
    backoff_handler [("websockets_warn_after_disconnected", ConfigVal.num 10)] ⟨15, 3, 2⟩
      = .ok (some ⟨15, 3, 2⟩) := by
  decide

/-- C8.  When `wait_closed` ends with `AWLConnectionError` and the
defensive `logout` raises `AWLLoginError`, the handler swallows the login
failure: it still sleeps the fixed one-second delay and re-invokes
`establish_awl_session`, and no exception escapes the handler. -/
theorem reconnection_handler_swallows_loginError :
    awl_reconnection_handler (.error .awlConnectionError) (.error .awlLoginError)
      = ([.waitClosed, .logout, .sleepOne, .reconnect], none) := by
  decide

/-- C10.  When the defensive `logout` raises `AWLConnectionError`, the
inner `except AWLLoginError` does not match and the outer handler (already
inside its `except` clause) cannot catch it either: the exception escapes
the handler and neither the fixed delay nor the reconnection attempt is
reached. -/
theorem reconnection_handler_connError_escapes :
    awl_reconnection_handler (.error .awlConnectionError) (.error .awlConnectionError)
      = ([.waitClosed, .logout], some .awlConnectionError) ∧
    Step.sleepOne ∉ [Step.waitClosed, Step.logout] ∧
    Step.reconnect ∉ [Step.waitClosed, Step.logout] := by
  decide

/-!
## Helper lemmas about the dict model
-/

theorem lookup_cons {V : Type} (k a : String) (b : V) (rest : List (String × V)) :
    List.lookup k ((a, b) :: rest) = if k == a then some b else List.lookup k rest := by
  cases h : k == a <;> simp [List.lookup, h]

theorem lookup_append {V : Type} (l1 l2 : List (String × V)) (k : String) :
    List.lookup k (l1 ++ l2) =
      (match List.lookup k l1 with
       | some v => some v
       | none => List.lookup k l2) := by
  induction l1 with
  | nil => simp [List.lookup]
  | cons p rest ih =>
    obtain ⟨a, b⟩ := p
    cases h : k == a <;> simp [lookup_cons, h, ih]

theorem lookup_none_of_any_false {V : Type} {d : List (String × V)} {k : String}
    (h : (d.any fun p => k == p.1) = false) : List.lookup k d = none := by
  induction d with
  | nil => rfl
  | cons p rest ih =>
    obtain ⟨a, b⟩ := p
    simp only [List.any_cons, Bool.or_eq_false_iff] at h
    rw [lookup_cons, if_neg (by simp [h.1])]
    exact ih h.2

theorem any_eq_false_of_lookup_none {V : Type} {d : List (String × V)} {k : String}
    (h : List.lookup k d = none) : (d.any fun p => k == p.1) = false := by
  induction d with
  | nil => rfl
  | cons p rest ih =>
    obtain ⟨a, b⟩ := p
    rw [lookup_cons] at h
    cases hak : k == a
    · rw [if_neg (by simp [hak])] at h
      simp [hak, ih h]
    · rw [if_pos (by simp [hak])] at h
      exact absurd h (by simp)

theorem lookup_map_overwrite {V : Type} (d : List (String × V)) (k : String) (v : V)
    (h : (d.any fun p => k == p.1) = true) :
    List.lookup k (d.map (fun p => if k == p.1 then (k, v) else p)) = some v := by
  induction d with
  | nil => exact absurd h (by simp)
  | cons p rest ih =>
    obtain ⟨a, b⟩ := p
    by_cases hka : k = a
    · subst hka
      simp [lookup_cons]
    · have h' : (rest.any fun p => k == p.1) = true := by
        have hb : (k == a) = false := by simp [hka]
        rw [List.any_cons, hb, Bool.false_or] at h
        exact h
      simp only [List.map_cons]
      simpa [lookup_cons, hka] using ih h'

theorem lookup_dictInsert {V : Type} (d : List (String × V)) (k : String) (v : V) :
    List.lookup k (dictInsert d k v) = some v := by
  unfold dictInsert
  cases h : (d.any fun p => k == p.1)
  · have hnone := lookup_none_of_any_false h
    simp only [Bool.false_eq_true, if_false, lookup_append, hnone]
    simp [lookup_cons]
  · simp only [if_true]
    exact lookup_map_overwrite d k v h

theorem cacheHit_false_mono {V : Type} (cache : List (String × CacheEntry V))
    (k : String) (ttl now now' : Rat) (hle : now ≤ now')
    (h : cacheHit cache k ttl now = false) : cacheHit cache k ttl now' = false := by
  unfold cacheHit at h ⊢
  cases hl : List.lookup k cache with
  | none => simp
  | some entry =>
    rw [hl] at h
    simp only [decide_eq_false_iff_not] at h ⊢
    intro hc
    exact h (lt_of_le_of_lt hle hc)

/-!
## Cache claims
-/

/-- C5.  A first call at time `T` that misses computes the value `v` and
stores it with `insertedAt = T`; a second call at `T + ε` with `0 ≤ ε < 10`
returns the identical stored value, leaves the cache unchanged and does
not invoke the upstream read (third component `false`); a call at
`T + 10 + ε'` with `0 ≤ ε'` invokes the upstream read again and replaces
the stored entry. -/
theorem awl_read_gateway_freshness {E : Type}
    (upstream_read upstream_read2 : String → Except E TelemetryPayload)
    (cache : List (String × CacheEntry TelemetryPayload))
    (gwid : String) (T eps eps2 : Rat) (v v2 : TelemetryPayload)
    (hmiss : List.lookup gwid cache = none)
    (h1 : upstream_read gwid = .ok v)
    (h2 : upstream_read2 gwid = .ok v2)
    (_heps0 : 0 ≤ eps) (heps : eps < 10) (heps2 : 0 ≤ eps2) :
    awl_read_gateway upstream_read cache T gwid
      = (.ok v, dictInsert cache gwid ⟨v, T⟩, true) ∧
    awl_read_gateway upstream_read (dictInsert cache gwid ⟨v, T⟩) (T + eps) gwid
      = (.ok v, dictInsert cache gwid ⟨v, T⟩, false) ∧
    awl_read_gateway upstream_read2 (dictInsert cache gwid ⟨v, T⟩) (T + 10 + eps2) gwid
      = (.ok v2,
         dictInsert (dictInsert cache gwid ⟨v, T⟩) gwid ⟨v2, T + 10 + eps2⟩, true) := by
  have hstore : List.lookup gwid (dictInsert cache gwid ⟨v, T⟩) = some ⟨v, T⟩ :=
    lookup_dictInsert cache gwid ⟨v, T⟩
  refine ⟨?_, ?_, ?_⟩
  · simp [awl_read_gateway, get_or_compute, hmiss, h1]
  · simp only [awl_read_gateway, get_or_compute, hstore]
    rw [if_pos (by linarith)]
  · simp only [awl_read_gateway, get_or_compute, hstore]
    rw [if_neg (by linarith), h2]

/-- C5 witness: concrete run with `T = 0`, `ε = 3`, `ε' = 1`. -/
theorem awl_read_gateway_freshness_witness :
    awl_read_gateway (fun _ => (.ok [("a", JValue.str "x")] : Except PyExc TelemetryPayload))
        [] 0 "gw1"
      = (.ok [("a", JValue.str "x")], dictInsert [] "gw1" ⟨[("a", JValue.str "x")], 0⟩, true) ∧
    awl_read_gateway (fun _ => (.ok [("a", JValue.str "x")] : Except PyExc TelemetryPayload))
        (dictInsert [] "gw1" ⟨[("a", JValue.str "x")], 0⟩) (0 + 3) "gw1"
      = (.ok [("a", JValue.str "x")], dictInsert [] "gw1" ⟨[("a", JValue.str "x")], 0⟩, false) ∧
    awl_read_gateway (fun _ => (.ok [] : Except PyExc TelemetryPayload))
        (dictInsert [] "gw1" ⟨[("a", JValue.str "x")], 0⟩) (0 + 10 + 1) "gw1"
      = (.ok [], dictInsert (dictInsert [] "gw1" ⟨[("a", JValue.str "x")], 0⟩) "gw1"
          ⟨[], 0 + 10 + 1⟩, true) :=
  awl_read_gateway_freshness _ _ [] "gw1" 0 3 1 _ _ rfl rfl rfl
    (by decide) (by decide) (by decide)

/-- C6.  If the computation invoked on a miss fails, the error propagates
unchanged, the cache is left exactly as it was (no entry stored), and any
immediately following call for the same key at a time `now' ≥ now`
re-invokes the computation instead of returning a cached failure. -/
theorem awl_read_gateway_failure_isolation {E : Type}
    (upstream_read upstream_read2 : String → Except E TelemetryPayload)
    (cache : List (String × CacheEntry TelemetryPayload))
    (gwid : String) (now now' : Rat) (e : E)
    (hmiss : cacheHit cache gwid 10 now = false)
    (hfail : upstream_read gwid = .error e)
    (hle : now ≤ now') :
    awl_read_gateway upstream_read cache now gwid = (.error e, cache, true) ∧
    (awl_read_gateway upstream_read2 cache now' gwid).2.2 = true := by
  have hmiss' := cacheHit_false_mono cache gwid 10 now now' hle hmiss
  unfold cacheHit at hmiss hmiss'
  constructor
  · unfold awl_read_gateway get_or_compute
    cases hl : List.lookup gwid cache with
    | none => simp [hfail]
    | some entry =>
      rw [hl] at hmiss
      simp only [decide_eq_false_iff_not] at hmiss
      simp [hmiss, hfail]
  · unfold awl_read_gateway get_or_compute
    cases hl : List.lookup gwid cache with
    | none => cases hr : upstream_read2 gwid <;> simp [hr]
    | some entry =>
      rw [hl] at hmiss'
      simp only [decide_eq_false_iff_not] at hmiss'
      cases hr : upstream_read2 gwid <;> simp [hmiss', hr]

/-- C6 witness: a failing read on the empty cache at time 0, retried at
time 1. -/
theorem awl_read_gateway_failure_isolation_witness :
    awl_read_gateway (fun _ => (.error PyExc.awlConnectionError : Except PyExc TelemetryPayload))
        [] 0 "gw1"
      = (.error PyExc.awlConnectionError, [], true) ∧
    (awl_read_gateway (fun _ => (.ok [] : Except PyExc TelemetryPayload)) [] 1 "gw1").2.2
      = true :=
  awl_read_gateway_failure_isolation _ _ [] "gw1" 0 1 PyExc.awlConnectionError
    rfl rfl (by decide)

/-!
## Projection helper lemmas
-/

theorem gatewaysLoop_ok (locs : List AwlLocation)
    (h : ∀ loc ∈ locs, ∃ gws, loc.gateways = some gws) :
    gatewaysLoop locs = .ok ((locs.map (fun loc =>
      (loc.gateways.getD []).filterMap (gatewayRow loc))).flatten) := by
  induction locs with
  | nil => rfl
  | cons loc rest ih =>
    obtain ⟨gws, hg⟩ := h loc (List.mem_cons_self loc rest)
    have ihr := ih (fun l hl => h l (List.mem_cons_of_mem loc hl))
    simp [gatewaysLoop, hg, ihr, Except.map]

theorem zonesGatewayLoop_ok_iff (loc : AwlLocation) (gws : List AwlGateway)
    (l : List ZoneRecord) (h : zonesGatewayLoop loc gws = .ok l) :
    l = (gws.map (fun gw =>
      (gw.tstat_names.getD []).filterMap (zoneRow loc gw))).flatten := by
  induction gws generalizing l with
  | nil =>
    simp only [zonesGatewayLoop] at h
    cases h
    rfl
  | cons gw rest ih =>
    unfold zonesGatewayLoop at h
    cases hg : gw.tstat_names with
    | none => rw [hg] at h; cases h
    | some entries =>
      rw [hg] at h
      cases hrest : zonesGatewayLoop loc rest with
      | error e => rw [hrest] at h; simp [Except.map] at h
      | ok tail =>
        rw [hrest] at h
        simp only [Except.map, Except.ok.injEq] at h
        subst h
        simp [ih tail hrest, hg]

theorem zonesGatewayLoop_ok (loc : AwlLocation) (gws : List AwlGateway)
    (h : ∀ gw ∈ gws, ∃ entries, gw.tstat_names = some entries) :
    zonesGatewayLoop loc gws = .ok ((gws.map (fun gw =>
      (gw.tstat_names.getD []).filterMap (zoneRow loc gw))).flatten) := by
  induction gws with
  | nil => rfl
  | cons gw rest ih =>
    obtain ⟨entries, hg⟩ := h gw (List.mem_cons_self gw rest)
    have ihr := ih (fun g hg' => h g (List.mem_cons_of_mem gw hg'))
    simp [zonesGatewayLoop, hg, ihr, Except.map]

theorem zonesLoop_ok_iff (locs : List AwlLocation) (l : List ZoneRecord)
    (h : zonesLoop locs = .ok l) :
    l = (locs.map (fun loc =>
      ((loc.gateways.getD []).map (fun gw =>
        (gw.tstat_names.getD []).filterMap (zoneRow loc gw))).flatten)).flatten := by
  induction locs generalizing l with
  | nil =>
    simp only [zonesLoop] at h
    cases h
    rfl
  | cons loc rest ih =>
    unfold zonesLoop at h
    cases hg : loc.gateways with
    | none => rw [hg] at h; cases h
    | some gws =>
      simp only [hg] at h
      cases hhere : zonesGatewayLoop loc gws with
      | error e => rw [hhere] at h; simp [Bind.bind, Except.bind] at h
      | ok here =>
        rw [hhere] at h
        cases hrest : zonesLoop rest with
        | error e =>
          rw [hrest] at h
          simp [Bind.bind, Except.bind, Pure.pure, Except.pure] at h
        | ok tail =>
          rw [hrest] at h
          simp only [Bind.bind, Except.bind, Pure.pure, Except.pure,
            Except.ok.injEq] at h
          subst h
          simp [zonesGatewayLoop_ok_iff loc gws here hhere, ih tail hrest, hg]

theorem zonesLoop_ok (locs : List AwlLocation)
    (h : ∀ loc ∈ locs, ∃ gws, loc.gateways = some gws ∧
      ∀ gw ∈ gws, ∃ entries, gw.tstat_names = some entries) :
    ∃ l, zonesLoop locs = .ok l := by
  induction locs with
  | nil => exact ⟨[], rfl⟩
  | cons loc rest ih =>
    obtain ⟨gws, hg, hgw⟩ := h loc (List.mem_cons_self loc rest)
    obtain ⟨tail, htail⟩ := ih (fun l hl => h l (List.mem_cons_of_mem loc hl))
    refine ⟨((gws.map (fun gw =>
      (gw.tstat_names.getD []).filterMap (zoneRow loc gw))).flatten) ++ tail, ?_⟩
    unfold zonesLoop
    simp only [hg]
    rw [zonesGatewayLoop_ok loc gws hgw, htail]
    rfl

/-- On a well-shaped snapshot, zone enumeration succeeds and returns
exactly the spec-side flattening. -/
theorem zones_ok_of_wellShaped (login : LoginData) (h : WellShaped login) :
    awl_enumerate_zones login = .ok (enumerateZonesSpec login) := by
  obtain ⟨locs, hlocs, hrest⟩ := h
  obtain ⟨l, hl⟩ := zonesLoop_ok locs hrest
  unfold awl_enumerate_zones
  simp only [hlocs]
  rw [hl, zonesLoop_ok_iff locs l hl]
  unfold enumerateZonesSpec
  simp only [hlocs, Option.getD_some]

theorem gatewayRow_origin {loc : AwlLocation} {gw : AwlGateway} {r : GatewayRecord}
    (h : gatewayRow loc gw = some r) : gw.gwid = some r.gwid := by
  unfold gatewayRow at h
  cases hg : gw.gwid with
  | none => rw [hg] at h; cases h
  | some g => simp only [hg] at h; cases h; rfl

theorem zoneRow_origin {loc : AwlLocation} {gw : AwlGateway}
    {e : String × Option String} {r : ZoneRecord}
    (h : zoneRow loc gw e = some r) :
    ∃ key, e = (key, some r.zone_name) ∧ pyInt (pyDrop1 key) = some r.zoneid ∧
      gw.gwid = some r.gwid := by
  obtain ⟨key, zn⟩ := e
  unfold zoneRow at h
  cases zn with
  | none => cases h
  | some zname =>
    simp only at h
    cases hg : gw.gwid with
    | none => rw [hg] at h; cases h
    | some g =>
      simp only [hg] at h
      cases hp : pyInt (pyDrop1 key) with
      | none => rw [hp] at h; cases h
      | some z =>
        simp only [hp] at h
        cases h
        exact ⟨key, rfl, hp, rfl⟩

/-!
## Projection claims
-/

/-- C3.  On a snapshot where every location carries a `gateways` list,
gateway enumeration succeeds and returns exactly the location-order-then-
gateway-order flattening in which a gateway without the `gwid` key is
omitted (its `KeyError` is caught and logged, and the remaining gateways
are still processed); and every emitted record's `gwid` comes from a
present, non-null `gwid` key of its source gateway. -/
theorem awl_enumerate_gateways_order_skip (login : LoginData)
    (h : GatewaysShaped login) :
    awl_enumerate_gateways login = .ok (enumerateGatewaysSpec login) ∧
    ∀ r ∈ enumerateGatewaysSpec login, ∃ loc ∈ login.locations.getD [],
      ∃ gw ∈ loc.gateways.getD [], gw.gwid = some r.gwid := by
  obtain ⟨locs, hlocs, hg⟩ := h
  constructor
  · unfold awl_enumerate_gateways
    simp only [hlocs]
    rw [gatewaysLoop_ok locs hg]
    unfold enumerateGatewaysSpec
    simp only [hlocs, Option.getD_some]
  · intro r hr
    unfold enumerateGatewaysSpec at hr
    rw [List.mem_flatten] at hr
    obtain ⟨sub, hsub, hrsub⟩ := hr
    rw [List.mem_map] at hsub
    obtain ⟨loc, hloc, hfsub⟩ := hsub
    subst hfsub
    rw [List.mem_filterMap] at hrsub
    obtain ⟨gw, hgw, hrow⟩ := hrsub
    exact ⟨loc, hloc, gw, hgw, gatewayRow_origin hrow⟩

/-- C3 witness: two locations, three gateways, one of which lacks `gwid`. -/
theorem awl_enumerate_gateways_order_skip_witness :
    awl_enumerate_gateways
        ⟨some [⟨some "A", some [⟨some "g1", some "S1", none⟩, ⟨none, some "SX", none⟩]⟩,
               ⟨some "B", some [⟨some "g2", some "S2", none⟩]⟩]⟩
      = .ok (enumerateGatewaysSpec
        ⟨some [⟨some "A", some [⟨some "g1", some "S1", none⟩, ⟨none, some "SX", none⟩]⟩,
               ⟨some "B", some [⟨some "g2", some "S2", none⟩]⟩]⟩) ∧
    ∀ r ∈ enumerateGatewaysSpec
        ⟨some [⟨some "A", some [⟨some "g1", some "S1", none⟩, ⟨none, some "SX", none⟩]⟩,
               ⟨some "B", some [⟨some "g2", some "S2", none⟩]⟩]⟩,
      ∃ loc ∈ (LoginData.locations
        ⟨some [⟨some "A", some [⟨some "g1", some "S1", none⟩, ⟨none, some "SX", none⟩]⟩,
               ⟨some "B", some [⟨some "g2", some "S2", none⟩]⟩]⟩).getD [],
        ∃ gw ∈ loc.gateways.getD [], gw.gwid = some r.gwid :=
  awl_enumerate_gateways_order_skip _ ⟨_, rfl, by simp⟩

/-- C2, amended.  For snapshots in which every location has a `gateways`
list and every gateway has a `tstat_names` mapping, zone enumeration never
fails: it returns the ordered list of zone records (empty if none), with
records missing `gwid` or with an unparsable zone-slot suffix skipped.
(The unamended claim is refuted by
`awl_enumerate_zones_fails_without_tstat_names`: a gateway lacking
`tstat_names` raises `KeyError`, which propagates as a request failure.) -/
theorem awl_enumerate_zones_total_when_wellShaped (login : LoginData)
    (h : WellShaped login) :
    awl_enumerate_zones login = .ok (enumerateZonesSpec login) :=
  zones_ok_of_wellShaped login h

/-- C2 witness: a well-shaped snapshot containing a null zone name and an
unparsable zone-slot key; enumeration still succeeds. -/
theorem awl_enumerate_zones_total_witness :
    awl_enumerate_zones
        ⟨some [⟨some "Home", some [⟨some "g1", some "Sys",
            some [("z1", some "Living"), ("z2", none), ("zx", some "Bad")]⟩]⟩]⟩
      = .ok (enumerateZonesSpec
        ⟨some [⟨some "Home", some [⟨some "g1", some "Sys",
            some [("z1", some "Living"), ("z2", none), ("zx", some "Bad")]⟩]⟩]⟩) :=
  awl_enumerate_zones_total_when_wellShaped _ ⟨_, rfl, by simp⟩

/-- C9.  Whenever zone enumeration succeeds, every emitted record stems
from a zone-slot entry whose zone name is non-null (`some r.zone_name`),
whose slot-key suffix parses to the record's integer `zoneid`, and whose
gateway has a present `gwid`; moreover a slot entry with a null name or an
unparsable suffix never produces a record (it is skipped, and — as the
success hypothesis over such snapshots shows — skipping it does not abort
enumeration of the remaining entries). -/
theorem awl_enumerate_zones_record_invariants (login : LoginData)
    (l : List ZoneRecord) (h : awl_enumerate_zones login = .ok l) :
    (∀ r ∈ l, ∃ loc ∈ login.locations.getD [], ∃ gw ∈ loc.gateways.getD [],
      ∃ key, (key, some r.zone_name) ∈ gw.tstat_names.getD [] ∧
        pyInt (pyDrop1 key) = some r.zoneid ∧ gw.gwid = some r.gwid) ∧
    (∀ (loc : AwlLocation) (gw : AwlGateway) (e : String × Option String),
      (e.2 = none ∨ pyInt (pyDrop1 e.1) = none) → zoneRow loc gw e = none) := by
  constructor
  · intro r hr
    unfold awl_enumerate_zones at h
    cases hlocs : login.locations with
    | none => rw [hlocs] at h; cases h
    | some locs =>
      simp only [hlocs] at h
      have hspec := zonesLoop_ok_iff locs l h
      subst hspec
      rw [List.mem_flatten] at hr
      obtain ⟨sub, hsub, hrsub⟩ := hr
      rw [List.mem_map] at hsub
      obtain ⟨loc, hloc, hfsub⟩ := hsub
      subst hfsub
      rw [List.mem_flatten] at hrsub
      obtain ⟨sub2, hsub2, hrsub2⟩ := hrsub
      rw [List.mem_map] at hsub2
      obtain ⟨gw, hgw, hfsub2⟩ := hsub2
      subst hfsub2
      rw [List.mem_filterMap] at hrsub2
      obtain ⟨e, he, hrow⟩ := hrsub2
      obtain ⟨key, hkey, hparse, hgwid⟩ := zoneRow_origin hrow
      subst hkey
      exact ⟨loc, by simpa [hlocs] using hloc, gw, hgw, key, he, hparse, hgwid⟩
  · intro loc gw e hcase
    obtain ⟨key, zn⟩ := e
    cases hcase with
    | inl h0 => simp only at h0; subst h0; rfl
    | inr h0 =>
      simp only at h0
      unfold zoneRow
      cases zn with
      | none => rfl
      | some zname =>
        simp only
        cases hg : gw.gwid with
        | none => rfl
        | some g => simp only [h0]

/-- C9 witness: the snapshot with slots `z1 → "Living"`, `z2 → null`,
`zx → "Bad"` enumerates to exactly one record, which satisfies the
invariants. -/
theorem awl_enumerate_zones_record_invariants_witness :
    (∀ r ∈ [(⟨some "Home", "g1", some "Sys", 1, "Living"⟩ : ZoneRecord)],
      ∃ loc ∈ (LoginData.locations
        ⟨some [⟨some "Home", some [⟨some "g1", some "Sys",
            some [("z1", some "Living"), ("z2", none), ("zx", some "Bad")]⟩]⟩]⟩).getD [],
        ∃ gw ∈ loc.gateways.getD [],
          ∃ key, (key, some r.zone_name) ∈ gw.tstat_names.getD [] ∧
            pyInt (pyDrop1 key) = some r.zoneid ∧ gw.gwid = some r.gwid) ∧
    (∀ (loc : AwlLocation) (gw : AwlGateway) (e : String × Option String),
      (e.2 = none ∨ pyInt (pyDrop1 e.1) = none) → zoneRow loc gw e = none) :=
  awl_enumerate_zones_record_invariants
    ⟨some [⟨some "Home", some [⟨some "g1", some "Sys",
        some [("z1", some "Living"), ("z2", none), ("zx", some "Bad")]⟩]⟩]⟩
    [⟨some "Home", "g1", some "Sys", 1, "Living"⟩] rfl

/-- C7.  When zone enumeration succeeds, the single-zone view filtered to
`(gwid, zoneid)` returns the unique record if the filter yields exactly
one, responds "not found" (404) if it yields none, and responds with the
internal-inconsistency fault (500) — never a silent pick — whenever it
yields two or more. -/
theorem view_gateway_zone_cases (login : LoginData) (gwid : String) (zoneid : Int)
    (zones : List ZoneRecord) (henum : awl_enumerate_zones login = .ok zones) :
    (zones.filter (fun z => z.gwid == gwid && z.zoneid == zoneid) = [] →
      view_gateway_zone login gwid zoneid = .ok .notFound) ∧
    (∀ r, zones.filter (fun z => z.gwid == gwid && z.zoneid == zoneid) = [r] →
      view_gateway_zone login gwid zoneid = .ok (.found r)) ∧
    (2 ≤ (zones.filter (fun z => z.gwid == gwid && z.zoneid == zoneid)).length →
      view_gateway_zone login gwid zoneid = .ok .internalError) := by
  unfold view_gateway_zone
  simp only [henum]
  refine ⟨?_, ?_, ?_⟩
  · intro hf; simp only [hf]
  · intro r hf; simp only [hf]
  · intro hlen
    cases hf : zones.filter (fun z => z.gwid == gwid && z.zoneid == zoneid) with
    | nil => rw [hf] at hlen; simp at hlen
    | cons a tail =>
      cases tail with
      | nil => rw [hf] at hlen; simp at hlen
      | cons b tail2 => simp only [hf]

/-- C7 witness: a snapshot with exactly one matching zone returns it. -/
theorem view_gateway_zone_cases_witness :
    view_gateway_zone
        ⟨some [⟨some "Home", some [⟨some "g1", some "Sys",
            some [("z1", some "Living")]⟩]⟩]⟩ "g1" 1
      = .ok (.found ⟨some "Home", "g1", some "Sys", 1, "Living"⟩) :=
  (view_gateway_zone_cases
    ⟨some [⟨some "Home", some [⟨some "g1", some "Sys",
        some [("z1", some "Living")]⟩]⟩]⟩ "g1" 1
    [⟨some "Home", "g1", some "Sys", 1, "Living"⟩] rfl).2.1
    ⟨some "Home", "g1", some "Sys", 1, "Living"⟩ rfl

/-!
## String and dict lemmas for the zone-detail extraction
-/


theorem string_toList_append (a b : String) : (a ++ b).toList = a.toList ++ b.toList := rfl

theorem zonePfx_toList (z : Nat) :
    (zonePfx z).toList = 'i' :: 'z' :: '2' :: '_' :: 'z' :: ((toString z).toList ++ ['_']) := rfl

theorem zonePfx_toList_ne_nil (z : Nat) : (zonePfx z).toList ≠ [] := by
  rw [zonePfx_toList]
  simp

theorem removeFirstSub_append (pat t : List Char) (hne : pat ≠ []) :
    removeFirstSub pat (pat ++ t) = t := by
  cases pat with
  | nil => exact absurd rfl hne
  | cons c cs =>
    rw [List.cons_append]
    unfold removeFirstSub
    rw [if_pos]
    · show ((c :: cs) ++ t).drop (c :: cs).length = t
      exact List.drop_left _ _
    · rw [List.isPrefixOf_iff_prefix]
      show (c :: cs) <+: (c :: cs) ++ t
      exact List.prefix_append _ _

theorem pyStartsWith_append (zp b : String) : pyStartsWith (zp ++ b) zp = true := by
  unfold pyStartsWith
  rw [List.isPrefixOf_iff_prefix, string_toList_append]
  exact List.prefix_append _ _

theorem exists_suffix_of_pyStartsWith {s zp : String} (h : pyStartsWith s zp = true) :
    ∃ t, s.toList = zp.toList ++ t := by
  unfold pyStartsWith at h
  rw [List.isPrefixOf_iff_prefix] at h
  obtain ⟨t, ht⟩ := h
  exact ⟨t, ht.symm⟩

theorem pyReplaceFirst_append (zp n : String) (hz : zp.toList ≠ []) :
    pyReplaceFirst (zp ++ n) zp = n := by
  unfold pyReplaceFirst
  rw [string_toList_append, removeFirstSub_append _ _ hz]
  rfl

theorem pyReplaceFirst_of_suffix {s zp : String} {t : List Char} (hz : zp.toList ≠ [])
    (h : s.toList = zp.toList ++ t) : pyReplaceFirst s zp = String.mk t := by
  unfold pyReplaceFirst
  rw [h, removeFirstSub_append _ _ hz]

theorem mem_of_lookup_eq_some {V : Type} {l : List (String × V)} {k : String} {v : V}
    (h : List.lookup k l = some v) : (k, v) ∈ l := by
  induction l with
  | nil => cases h
  | cons p rest ih =>
    obtain ⟨a, b⟩ := p
    rw [lookup_cons] at h
    by_cases hka : k = a
    · subst hka
      rw [if_pos (by simp)] at h
      cases h
      exact List.mem_cons_self _ _
    · rw [if_neg (by simp [hka])] at h
      exact List.mem_cons_of_mem _ (ih h)

theorem lookup_eq_some_of_unique {V : Type} {l : List (String × V)} {k : String} {w : V}
    (hin : (k, w) ∈ l) (huniq : ∀ q ∈ l, q.1 = k → q.2 = w) :
    List.lookup k l = some w := by
  induction l with
  | nil => cases hin
  | cons p rest ih =>
    obtain ⟨a, b⟩ := p
    rw [lookup_cons]
    by_cases hka : k = a
    · subst hka
      rw [if_pos (by simp)]
      have hb : b = w := huniq (k, b) (List.mem_cons_self _ _) rfl
      rw [hb]
    · rw [if_neg (by simp [hka])]
      apply ih
      · cases hin with
        | head => exact absurd rfl hka
        | tail _ h => exact h
      · exact fun q hq hq1 => huniq q (List.mem_cons_of_mem _ hq) hq1

theorem value_unique_of_nodup_keys {V : Type} {l : List (String × V)}
    (hnd : (l.map Prod.fst).Nodup) {k : String} {a b : V}
    (ha : (k, a) ∈ l) (hb : (k, b) ∈ l) : a = b := by
  induction l with
  | nil => cases ha
  | cons p rest ih =>
    rw [List.map_cons, List.nodup_cons] at hnd
    cases ha with
    | head =>
      cases hb with
      | head => rfl
      | tail _ h =>
        exact absurd (List.mem_map_of_mem Prod.fst h) (by simpa using hnd.1)
    | tail _ ha' =>
      cases hb with
      | head =>
        exact absurd (List.mem_map_of_mem Prod.fst ha') (by simpa using hnd.1)
      | tail _ hb' => exact ih hnd.2 ha' hb'

theorem lookup_filter {V : Type} (l : List (String × V)) (f : String × V → Bool)
    (k : String) (hf : ∀ v, f (k, v) = true) :
    List.lookup k (l.filter f) = List.lookup k l := by
  induction l with
  | nil => rfl
  | cons p rest ih =>
    obtain ⟨a, b⟩ := p
    by_cases hka : k = a
    · subst hka
      rw [List.filter_cons, if_pos (hf b)]
      rw [lookup_cons, lookup_cons, if_pos (by simp), if_pos (by simp)]
    · rw [List.filter_cons]
      by_cases hfb : f (a, b) = true
      · rw [if_pos hfb, lookup_cons, lookup_cons,
            if_neg (by simp [hka]), if_neg (by simp [hka])]
        exact ih
      · rw [if_neg hfb, lookup_cons, if_neg (by simp [hka])]
        exact ih

theorem lookup_map_overwrite_ne {V : Type} (d : List (String × V)) (k a : String) (v : V)
    (hka : k ≠ a) :
    List.lookup k (d.map (fun p => if a == p.1 then (a, v) else p)) = List.lookup k d := by
  induction d with
  | nil => rfl
  | cons p rest ih =>
    obtain ⟨b, c⟩ := p
    rw [List.map_cons]
    by_cases hab : a = b
    · subst hab
      rw [if_pos (by simp), lookup_cons, lookup_cons,
          if_neg (by simp [hka]), if_neg (by simp [hka])]
      exact ih
    · rw [if_neg (by simp [hab])]
      rw [lookup_cons, lookup_cons]
      by_cases hkb : k = b
      · rw [if_pos (by simp [hkb]), if_pos (by simp [hkb])]
      · rw [if_neg (by simp [hkb]), if_neg (by simp [hkb])]
        exact ih

theorem lookup_dictInsert_general {V : Type} (d : List (String × V)) (k a : String) (v : V) :
    List.lookup k (dictInsert d a v) = if k == a then some v else List.lookup k d := by
  by_cases hka : k = a
  · subst hka
    rw [lookup_dictInsert, if_pos (by simp)]
  · rw [if_neg (by simp [hka])]
    unfold dictInsert
    cases h : (d.any fun p => a == p.1)
    · rw [if_neg (by simp), lookup_append]
      cases hl : List.lookup k d
      · simp only
        rw [lookup_cons, if_neg (by simp [hka])]
        rfl
      · rfl
    · rw [if_pos rfl]
      exact lookup_map_overwrite_ne d k a v hka

theorem lookup_foldl_insert {V : Type} (items : List (String × V))
    (acc : List (String × V)) (k : String) :
    List.lookup k (items.foldl (fun a p => dictInsert a p.1 p.2) acc) =
      (match List.lookup k items.reverse with
       | some v => some v
       | none => List.lookup k acc) := by
  induction items generalizing acc with
  | nil => simp [List.lookup]
  | cons p rest ih =>
    rw [List.foldl_cons, ih (dictInsert acc p.1 p.2), List.reverse_cons, lookup_append]
    cases hl : List.lookup k rest.reverse with
    | some v => rfl
    | none =>
      simp only
      obtain ⟨a, b⟩ := p
      rw [lookup_dictInsert_general, lookup_cons]
      by_cases hka : k = a
      · rw [if_pos (by simp [hka]), if_pos (by simp [hka])]
      · rw [if_neg (by simp [hka]), if_neg (by simp [hka])]
        rfl

theorem lookup_dictOfItems {V : Type} (items : List (String × V)) (k : String) :
    List.lookup k (dictOfItems items) = List.lookup k items.reverse := by
  unfold dictOfItems
  rw [lookup_foldl_insert]
  cases List.lookup k items.reverse <;> rfl

theorem mem_keys_dictInsert {V : Type} {d : List (String × V)} {k : String} {v : V}
    {q : String × V} (h : q ∈ dictInsert d k v) :
    q.1 = k ∨ q.1 ∈ d.map Prod.fst := by
  unfold dictInsert at h
  by_cases ha : (d.any fun p => k == p.1) = true
  · rw [if_pos ha, List.mem_map] at h
    obtain ⟨p, hp, hq⟩ := h
    by_cases hk : (k == p.1) = true
    · rw [if_pos hk] at hq
      subst hq
      exact Or.inl rfl
    · rw [if_neg hk] at hq
      subst hq
      exact Or.inr (List.mem_map_of_mem Prod.fst hp)
  · rw [if_neg ha, List.mem_append] at h
    cases h with
    | inl h' => exact Or.inr (List.mem_map_of_mem Prod.fst h')
    | inr h' =>
      rw [List.mem_singleton] at h'
      subst h'
      exact Or.inl rfl

theorem mem_keys_foldl_insert {V : Type} (items : List (String × V))
    (acc : List (String × V)) {q : String × V}
    (h : q ∈ items.foldl (fun a p => dictInsert a p.1 p.2) acc) :
    q.1 ∈ acc.map Prod.fst ∨ q.1 ∈ items.map Prod.fst := by
  induction items generalizing acc with
  | nil => exact Or.inl (List.mem_map_of_mem Prod.fst h)
  | cons p rest ih =>
    rw [List.foldl_cons] at h
    rcases ih (dictInsert acc p.1 p.2) h with h' | h'
    · rw [List.mem_map] at h'
      obtain ⟨q', hq', he⟩ := h'
      rcases mem_keys_dictInsert hq' with h2 | h2
      · exact Or.inr (by rw [List.map_cons, ← he, h2]; exact List.mem_cons_self _ _)
      · exact Or.inl (by rw [← he]; exact h2)
    · exact Or.inr (by rw [List.map_cons]; exact List.mem_cons_of_mem _ h')

theorem mem_keys_dictOfItems {V : Type} {items : List (String × V)} {q : String × V}
    (h : q ∈ dictOfItems items) : q.1 ∈ items.map Prod.fst := by
  rcases mem_keys_foldl_insert items [] h with h' | h'
  · cases h'
  · exact h'

theorem dictUpdate_append {V : Type} (other d : List (String × V))
    (hnd : (other.map Prod.fst).Nodup)
    (hdisj : ∀ p ∈ other, (d.any fun q => p.1 == q.1) = false) :
    dictUpdate d other = d ++ other := by
  induction other generalizing d with
  | nil => simp [dictUpdate]
  | cons p rest ih =>
    rw [List.map_cons, List.nodup_cons] at hnd
    have hins : dictInsert d p.1 p.2 = d ++ [p] := by
      unfold dictInsert
      rw [if_neg (by simp [hdisj p (List.mem_cons_self _ _)])]
    have hstep : dictUpdate d (p :: rest) = dictUpdate (dictInsert d p.1 p.2) rest := rfl
    rw [hstep, hins, ih (d ++ [p]) hnd.2]
    · rw [List.append_assoc, List.singleton_append]
    · intro p' hp'
      rw [List.any_eq_false]
      intro q hq
      rw [List.mem_append] at hq
      cases hq with
      | inl hq' =>
        have := hdisj p' (List.mem_cons_of_mem _ hp')
        rw [List.any_eq_false] at this
        exact this q hq'
      | inr hq' =>
        rw [List.mem_singleton] at hq'
        subst hq'
        have : p'.1 ≠ q.1 := by
          intro hc
          exact hnd.1 (by rw [← hc]; exact List.mem_map_of_mem Prod.fst hp')
        simp [this]



/-- General collision analysis for `read_zone`: in a payload (with distinct
keys) holding `iz2_z{z}_activesettings = A` where `A` contains the key `n`
(and no key of `A` contains the zone namespace as a substring), together
with the sibling key `iz2_z{z}_n = w`, the extraction succeeds and the final
mapping holds the sibling's value `w` at `n` — the promoted `activesettings`
entry is overwritten during prefix stripping. -/
theorem read_zone_sibling_wins (payload : TelemetryPayload) (z : Nat)
    (A : List (String × JValue)) (n : String) (v w : JValue)
    (hnd : (payload.map Prod.fst).Nodup)
    (hA : List.lookup (zonePfx z ++ "activesettings") payload = some (JValue.obj A))
    (hAfree : ∀ p ∈ A, removeFirstSub (zonePfx z).toList p.1.toList = p.1.toList)
    (_hv : List.lookup n A = some v)
    (hn : n ≠ "activesettings")
    (hsib : List.lookup (zonePfx z ++ n) payload = some w) :
    ∃ out, read_zone payload z = .ok out ∧ List.lookup n out = some w := by
  have hfilterA : List.lookup (zonePfx z ++ "activesettings")
      (payload.filter (fun p => pyStartsWith p.1 (zonePfx z))) = some (JValue.obj A) := by
    rw [lookup_filter payload _ _ (fun v' => pyStartsWith_append _ _)]
    exact hA
  simp only [read_zone, hfilterA]
  refine ⟨_, rfl, ?_⟩
  set rem := List.filter (fun p => p.1 != zonePfx z ++ "activesettings")
    (List.filter (fun p => pyStartsWith p.1 (zonePfx z)) payload) with hrem
  have hrem_start : ∀ p ∈ rem, pyStartsWith p.1 (zonePfx z) = true := by
    intro p hp
    rw [hrem] at hp
    exact (List.mem_filter.mp (List.mem_filter.mp hp).1).2
  have hrem_nodup : (rem.map Prod.fst).Nodup := by
    rw [hrem]
    exact hnd.sublist
      (((List.filter_sublist _).trans (List.filter_sublist _)).map Prod.fst)
  have hAkeys_free : ∀ q ∈ dictOfItems A,
      removeFirstSub (zonePfx z).toList q.1.toList = q.1.toList := by
    intro q hq
    have hk := mem_keys_dictOfItems hq
    rw [List.mem_map] at hk
    obtain ⟨p, hp, he⟩ := hk
    rw [← he]
    exact hAfree p hp
  have hAkeys_nostart : ∀ q ∈ dictOfItems A,
      pyStartsWith q.1 (zonePfx z) = false := by
    intro q hq
    cases hst : pyStartsWith q.1 (zonePfx z) with
    | false => rfl
    | true =>
      obtain ⟨t, ht⟩ := exists_suffix_of_pyStartsWith hst
      have hfree := hAkeys_free q hq
      rw [ht, removeFirstSub_append _ _ (zonePfx_toList_ne_nil z)] at hfree
      have hlen := congrArg List.length hfree
      rw [List.length_append] at hlen
      have hzero : (zonePfx z).toList.length = 0 := by omega
      exact absurd (List.length_eq_zero.mp hzero) (zonePfx_toList_ne_nil z)
  have hdisj : ∀ p ∈ rem, ((dictOfItems A).any fun q => p.1 == q.1) = false := by
    intro p hp
    rw [List.any_eq_false]
    intro q hq hc
    have heq : p.1 = q.1 := eq_of_beq hc
    have h1 := hrem_start p hp
    rw [heq, hAkeys_nostart q hq] at h1
    cases h1
  have hArw : dictUpdate ([] : TelemetryPayload) A = dictOfItems A := rfl
  have hflat : dictUpdate (dictOfItems A) rem = dictOfItems A ++ rem :=
    dictUpdate_append rem (dictOfItems A) hrem_nodup hdisj
  rw [hArw, hflat, List.map_append, lookup_dictOfItems, List.reverse_append,
    lookup_append]
  have hfind : List.lookup n
      ((rem.map (fun p => (pyReplaceFirst p.1 (zonePfx z), p.2))).reverse) = some w := by
    apply lookup_eq_some_of_unique
    · rw [List.mem_reverse, List.mem_map]
      refine ⟨(zonePfx z ++ n, w), ?_, ?_⟩
      · rw [hrem, List.mem_filter]
        constructor
        · rw [List.mem_filter]
          exact ⟨mem_of_lookup_eq_some hsib, pyStartsWith_append _ _⟩
        · have hne : zonePfx z ++ n ≠ zonePfx z ++ "activesettings" := by
            intro hc
            apply hn
            have hd := congrArg String.data hc
            rw [String.data_append, String.data_append] at hd
            exact String.ext (List.append_inj_right hd rfl)
          simpa using hne
      · show (pyReplaceFirst (zonePfx z ++ n) (zonePfx z), w) = (n, w)
        rw [pyReplaceFirst_append _ _ (zonePfx_toList_ne_nil z)]
    · intro q hq hq1
      rw [List.mem_reverse, List.mem_map] at hq
      obtain ⟨p, hp, hsp⟩ := hq
      have hps := hrem_start p hp
      obtain ⟨t, ht⟩ := exists_suffix_of_pyStartsWith hps
      have hrepl : pyReplaceFirst p.1 (zonePfx z) = String.mk t :=
        pyReplaceFirst_of_suffix (zonePfx_toList_ne_nil z) ht
      have hq1' : pyReplaceFirst p.1 (zonePfx z) = n := by
        rw [← hsp] at hq1
        exact hq1
      have htn : t = n.toList := congrArg String.data (hrepl.symm.trans hq1')
      have hp1 : p.1 = zonePfx z ++ n := by
        apply String.ext
        have hdata : p.1.data = (zonePfx z).data ++ t := ht
        rw [hdata, htn, String.data_append]
        rfl
      have hp_pay : p ∈ payload := by
        rw [hrem] at hp
        exact (List.mem_filter.mp (List.mem_filter.mp hp).1).1
      have hmemp : (zonePfx z ++ n, p.2) ∈ payload := by
        rw [← hp1]
        exact hp_pay
      have hval : p.2 = w :=
        value_unique_of_nodup_keys hnd hmemp (mem_of_lookup_eq_some hsib)
      rw [← hsp]
      exact hval
  rw [hfind]



/-- C1, amended.  The zone-detail extraction promotes the
`iz2_z{zoneid}_activesettings` contents to the top level, then merges the
remaining prefixed keys, and strips the prefix from all final keys (first
conjunct, the spec's round-trip fixture with arbitrary values); but when a
promoted `activesettings` key and a sibling prefixed key have the same
stripped name, the final mapping holds the sibling's value — the sibling
overwrites the promoted entry during prefix stripping, so `activesettings`
loses (second conjunct, in full generality). -/
theorem read_zone_promote_merge_strip :
    (∀ v w : JValue,
      read_zone [("iz2_z1_activesettings", JValue.obj [("mode", v)]),
                 ("iz2_z1_fan", w)] 1 = .ok [("mode", v), ("fan", w)]) ∧
    (∀ (payload : TelemetryPayload) (z : Nat) (A : List (String × JValue))
        (n : String) (v w : JValue),
      (payload.map Prod.fst).Nodup →
      List.lookup (zonePfx z ++ "activesettings") payload = some (JValue.obj A) →
      (∀ p ∈ A, removeFirstSub (zonePfx z).toList p.1.toList = p.1.toList) →
      List.lookup n A = some v →
      n ≠ "activesettings" →
      List.lookup (zonePfx z ++ n) payload = some w →
      ∃ out, read_zone payload z = .ok out ∧ List.lookup n out = some w) :=
  ⟨fun _ _ => rfl, read_zone_sibling_wins⟩

/-- C1 witness: the spec's fixture evaluates as stated, and on the
colliding payload the final `fan` value is the sibling's `"on"`. -/
theorem read_zone_promote_merge_strip_witness :
    read_zone [("iz2_z1_activesettings", JValue.obj [("mode", JValue.str "heat")]),
               ("iz2_z1_fan", JValue.str "on")] 1
      = .ok [("mode", JValue.str "heat"), ("fan", JValue.str "on")] ∧
    ∃ out, read_zone [("iz2_z1_activesettings", JValue.obj [("fan", JValue.str "auto")]),
               ("iz2_z1_fan", JValue.str "on")] 1 = .ok out ∧
      List.lookup "fan" out = some (JValue.str "on") :=
  ⟨read_zone_promote_merge_strip.1 _ _,
   read_zone_promote_merge_strip.2
     [("iz2_z1_activesettings", JValue.obj [("fan", JValue.str "auto")]),
      ("iz2_z1_fan", JValue.str "on")] 1 [("fan", JValue.str "auto")] "fan"
     (JValue.str "auto") (JValue.str "on")
     (by decide) rfl (by decide) rfl (by decide) rfl⟩


end WaterfurnacePy
